import Mathlib

/-!
Shallow embedding of the filter-and-aggregation logic of
`src/Clinic_dashboard.py` (a pandas/Streamlit dashboard script), together
with theorems settling the specification claims about it.

Modelling conventions:
* a pandas `DataFrame` is a `Frame`: a list of column names plus a list of
  rows, each row a function from column name to an optional `Cell`
  (`none` models a NaN/null cell);
* operations that raise a Python `KeyError` when a column is absent
  (column access, `isin` filtering, `dropna(subset=...)`,
  `sort_values`) return `Except String`;
* `sorted(...)` (Python, stable, lexicographic on strings) and
  `sort_values` (pandas, ascending, NaN last) are modelled with a stable
  insertion sort over executable boolean orders;
* `Series.unique()` (first-appearance order) is `firstOcc`;
* `value_counts()` drops nulls and is modelled as: distinct values in
  first-appearance order, stably sorted by count descending (pandas
  documents the descending count order; the tie order among equal counts
  is the model's stable first-appearance order, pandas gives no
  name-based tie promise);
* `drop_duplicates(subset=[k])` keeps the first row for each key value.
-/

namespace ClinicDash

/-- Value stored in a non-null dataframe cell: a string or a numeric
(modelled as a rational, used for latitude/longitude). -/
inductive Cell : Type where
  | s : String → Cell
  | q : ℚ → Cell
deriving DecidableEq

/-- Row of a dataframe: a function from column name to optional cell
(`none` is a NaN/null cell). -/
def Row : Type := String → Option Cell

/-- Dataframe: the list of column names present, and the rows. -/
structure Frame : Type where
  cols : List String
  rows : List Row

/-- Python `str()` of a cell; `str(nan) = "nan"`. -/
def cellToStr : Option Cell → String
  | none => "nan"
  | some (Cell.s v) => v
  | some (Cell.q v) => toString v

/-- Whitespace recognised by Python `str.strip()`. -/
def isSpaceChar (c : Char) : Bool :=
  c = ' ' || c = '\t' || c = '\n' || c = '\r' || c = '\x0b' || c = '\x0c'

/-- Python `str.strip()`: drop leading and trailing whitespace. -/
def pyStrip (s : String) : String :=
  String.mk (((s.data.dropWhile isSpaceChar).reverse.dropWhile isSpaceChar).reverse)

/-- Helper for `pyTitle`: the boolean records whether the previous
character was alphabetic. -/
def pyTitleGo : Bool → List Char → List Char
  | _, [] => []
  | prevAlpha, c :: cs =>
    if c.isAlpha then
      (if prevAlpha then c.toLower else c.toUpper) :: pyTitleGo true cs
    else
      c :: pyTitleGo false cs

/-- Python `str.title()`: first letter of each alphabetic run uppercased,
the rest lowercased. -/
def pyTitle (s : String) : String :=
  String.mk (pyTitleGo false s.data)

/-- Lexicographic order on character lists (Python string comparison),
as an executable boolean. -/
def charListLe : List Char → List Char → Bool
  | [], _ => true
  | _ :: _, [] => false
  | a :: as, b :: bs => if a = b then charListLe as bs else decide (a < b)

/-- Order used by Python `sorted` on the option lists: lexicographic on
strings; numeric cells are ordered among themselves and after strings
(mixed-type columns do not occur in the modelled pipelines). -/
def cellLe : Cell → Cell → Bool
  | Cell.s a, Cell.s b => charListLe a.data b.data
  | Cell.q a, Cell.q b => decide (a ≤ b)
  | Cell.s _, Cell.q _ => true
  | Cell.q _, Cell.s _ => false

/-- Order used by pandas `sort_values` (ascending, NaN placed last). -/
def naLastLe : Option Cell → Option Cell → Bool
  | none, none => true
  | none, some _ => false
  | some _, none => true
  | some x, some y => cellLe x y

/-- Stable insertion of one element into a sorted accumulator: the new
element goes after every existing element that is `le` it. -/
def insertLe {α : Type} (le : α → α → Bool) (x : α) : List α → List α
  | [] => [x]
  | y :: ys => if le y x then y :: insertLe le x ys else x :: y :: ys

/-- Stable sort (models Python `sorted` and pandas stable sorts). -/
def sortByLe {α : Type} (le : α → α → Bool) (l : List α) : List α :=
  l.foldl (fun acc x => insertLe le x acc) []

/-- Distinct elements in first-appearance order (pandas
`Series.unique()`); the accumulator holds the values already seen. -/
def firstOccAux {α : Type} [DecidableEq α] (seen : List α) : List α → List α
  | [] => []
  | x :: xs =>
    if x ∈ seen then firstOccAux seen xs
    else x :: firstOccAux (x :: seen) xs

/-- Distinct elements of a list in first-appearance order. -/
def firstOcc {α : Type} [DecidableEq α] (l : List α) : List α :=
  firstOccAux [] l

/-- Column access, `df[c]`: the list of cells, or a `KeyError` when the
column is absent. -/
def Frame.getCol (f : Frame) (c : String) : Except String (List (Option Cell)) :=
  if c ∈ f.cols then Except.ok (f.rows.map (fun r => r c)) else Except.error ("KeyError: " ++ c)

/-- Pandas `Series.isin(sel)` on one cell; a NaN cell never matches. -/
def cellIsin (o : Option Cell) (sel : List Cell) : Bool :=
  match o with
  | some v => sel.contains v
  | none => false

/-- Row filter `df[df[c].isin(sel)]`; `KeyError` when the column is
absent. -/
def Frame.filterIsin (f : Frame) (c : String) (sel : List Cell) : Except String Frame :=
  if c ∈ f.cols then
    Except.ok ⟨f.cols, f.rows.filter (fun r => cellIsin (r c) sel)⟩
  else Except.error ("KeyError: " ++ c)

/-- Row filter `df[df[c] == v]`; pandas `==` is false on NaN cells. -/
def Frame.filterEq (f : Frame) (c : String) (v : Cell) : Except String Frame :=
  if c ∈ f.cols then
    Except.ok ⟨f.cols, f.rows.filter (fun r => r c == some v)⟩
  else Except.error ("KeyError: " ++ c)

/-- Cell update of one column in one row. -/
def updateRow (r : Row) (c : String) (v : Option Cell) : Row :=
  fun d => if d = c then v else r d

/-- Pandas column assignment `df[c] = df[c].map(g)` (the column is known
to be present at every call site, matching the guarded source). -/
def setCol (f : Frame) (c : String) (g : Option Cell → Option Cell) : Frame :=
  ⟨f.cols, f.rows.map (fun r => updateRow r c (g (r c)))⟩

/-- Pandas `df.rename(columns={old: nw})`. -/
def renameCol (f : Frame) (old nw : String) : Frame :=
  ⟨f.cols.map (fun c => if c = old then nw else c),
   f.rows.map (fun r => fun d => if d = nw then r old else if d = old then none else r d)⟩

/-- Source lines 28-29: title-case the clinic type when the column is
present; pandas `astype(str)` turns a NaN cell into the string "nan"
first, so the cleaned column has no null cells. -/
def cleanType (f : Frame) : Frame :=
  if "Clinic_Type" ∈ f.cols then
    setCol f "Clinic_Type" (fun o => some (Cell.s (pyTitle (pyStrip (cellToStr o)))))
  else f

/-- Source lines 32-33: rename the legacy `source` column to `HQsource`
when present. -/
def cleanSource (f : Frame) : Frame :=
  if "source" ∈ f.cols then renameCol f "source" "HQsource" else f

/-- Source lines 35-36: fill null brand names with "Unknown" when the
column is present. -/
def cleanBrand (f : Frame) : Frame :=
  if "Brand_name" ∈ f.cols then
    setCol f "Brand_name" (fun o => some (o.getD (Cell.s "Unknown")))
  else f

/-- Data-cleaning part of `load_data` (source lines 28-38): the three
guarded steps in source order. -/
def clean (f : Frame) : Frame := cleanBrand (cleanSource (cleanType f))

/-- Filter selection state: the three multiselect widgets' selections
(`selected_types`, `selected_districts`, `selected_brands`). -/
structure Sel : Type where
  types : List Cell
  districts : List Cell
  brands : List Cell

/-- Source line 88: `sorted(df["Clinic_Type"].dropna().unique())`. -/
def clinic_type_options (df : Frame) : Except String (List Cell) :=
  (df.getCol "Clinic_Type").map (fun col => sortByLe cellLe (firstOcc (col.filterMap id)))

/-- Source lines 92, 96: the intermediate frame is `df` restricted by the
type selection, then
`sorted(temp_df["Mapped_District"].dropna().unique())`. -/
def district_options (df : Frame) (selTypes : List Cell) : Except String (List Cell) := do
  let temp ← df.filterIsin "Clinic_Type" selTypes
  let col ← temp.getCol "Mapped_District"
  pure (sortByLe cellLe (firstOcc (col.filterMap id)))

/-- Source lines 99-104: the intermediate frame is further restricted by
the district selection when it is nonempty, then
`sorted(temp_df[temp_df["Clinic_Type"] == "Chained"]["Brand_name"].dropna().unique())`. -/
def available_brands (df : Frame) (selTypes selDistricts : List Cell) :
    Except String (List Cell) :=
  df.filterIsin "Clinic_Type" selTypes >>= fun temp =>
  (if selDistricts.isEmpty then Except.ok temp
   else temp.filterIsin "Mapped_District" selDistricts) >>= fun temp2 =>
  temp2.filterEq "Clinic_Type" (Cell.s "Chained") >>= fun chained =>
  chained.getCol "Brand_name" >>= fun col =>
  Except.ok (sortByLe cellLe (firstOcc (col.filterMap id)))

/-- Option lists of the three filter widgets, computed for a full
selection state exactly as the script does (each widget's list in
source order: type, district, brand). -/
def cascadeOptions (df : Frame) (sel : Sel) :
    Except String (List Cell) × Except String (List Cell) × Except String (List Cell) :=
  (clinic_type_options df, district_options df sel.types,
   available_brands df sel.types sel.districts)

/-- Source lines 111-117: the final filtered frame; the district and
brand `isin` restrictions are applied only when the selection is
nonempty. -/
def filteredView (df : Frame) (sel : Sel) : Except String Frame :=
  df.filterIsin "Clinic_Type" sel.types >>= fun f1 =>
  (if sel.districts.isEmpty then Except.ok f1
   else f1.filterIsin "Mapped_District" sel.districts) >>= fun f2 =>
  (if sel.brands.isEmpty then Except.ok f2
   else f2.filterIsin "Brand_name" sel.brands)

/-- Pandas `Series.value_counts()` of a column: nulls are dropped, the
distinct values are taken in first-appearance order, and the pairs are
stably sorted by count descending (see the module docstring for the tie
order of the model). -/
def valueCounts (col : List (Option Cell)) : List (Cell × ℕ) :=
  sortByLe (fun a b => decide (b.2 ≤ a.2))
    ((firstOcc (col.filterMap id)).map (fun k => (k, (col.filterMap id).count k)))

/-- Source lines 147-148: `filtered["Mapped_District"].value_counts().head(10)`. -/
def top_dist (f : Frame) : Except String (List (Cell × ℕ)) :=
  (f.getCol "Mapped_District").map (fun col => (valueCounts col).take 10)

/-- Source lines 183-186: the chained rows' `Brand_name` value counts,
`head(10)`. -/
def top_brands (f : Frame) : Except String (List (Cell × ℕ)) := do
  let chained ← f.filterEq "Clinic_Type" (Cell.s "Chained")
  let col ← chained.getCol "Brand_name"
  pure ((valueCounts col).take 10)

/-- Pandas `drop_duplicates(subset=[key])` over (key, value) pairs: keep
a pair when its key has not been seen before (first occurrence wins,
whatever its value). -/
def dropDupByKey (seen : List (Option Cell)) :
    List (Option Cell × Option Cell) → List (Option Cell × Option Cell)
  | [] => []
  | p :: ps =>
    if p.1 ∈ seen then dropDupByKey seen ps
    else p :: dropDupByKey (p.1 :: seen) ps

/-- Source line 216:
`hq_display.drop_duplicates(subset=['Brand_name']).sort_values('Brand_name')`
on (brand, address) pairs: keep the first row per brand (whatever its
address value), then sort by brand, nulls last. -/
def distinct_hq (pairs : List (Option Cell × Option Cell)) :
    List (Option Cell × Option Cell) :=
  sortByLe (fun a b => naLastLe a.1 b.1) (dropDupByKey [] pairs)

/-- Column names probed, in priority order, for the headquarters address
(source line 205). -/
def possible_hq_cols : List String := ["HQ", "Headquarters", "HQ Address", "Google_Full_Address"]

/-- Source line 206: the first probed column name present in the frame. -/
def valid_hq_col (f : Frame) : Option String :=
  possible_hq_cols.find? (fun c => decide (c ∈ f.cols))

/-- Result of the Brand Headquarters section: the rendered table of
(brand, address) pairs, the "No Chained Clinics selected" info message,
or the missing-address-column error message. -/
inductive HQView : Type where
  | table : List (Option Cell × Option Cell) → HQView
  | infoNoChained : HQView
  | errorNoAddressCol : List String → HQView
deriving DecidableEq

/-- Source lines 203-223, given the already-computed `hq_data`: when it
is nonempty and an address column was found, the (Brand_name, address)
pairs are deduplicated on brand (first row per brand) and sorted by
brand; otherwise an info (empty) or error (no address column) view is
shown. -/
def brandHQcore (hq_data : Frame) : Except String HQView :=
  match valid_hq_col hq_data with
  | some c =>
    if hq_data.rows.isEmpty then pure HQView.infoNoChained
    else do
      let brands ← hq_data.getCol "Brand_name"
      let addrs ← hq_data.getCol c
      pure (HQView.table (distinct_hq (brands.zip addrs)))
  | none =>
    if hq_data.rows.isEmpty then pure HQView.infoNoChained
    else pure (HQView.errorNoAddressCol possible_hq_cols)

/-- Source lines 201-223: the Brand Headquarters section; `hq_data` is
the chained subset of the *filtered* frame. -/
def brandHQ (filtered : Frame) : Except String HQView := do
  let hq_data ← filtered.filterEq "Clinic_Type" (Cell.s "Chained")
  brandHQcore hq_data

/-- Source line 163: `filtered.dropna(subset=["Latitude", "Longitude"])`;
`dropna(subset=...)` raises a `KeyError` when a subset column is absent. -/
def geo_data (f : Frame) : Except String Frame :=
  if "Latitude" ∈ f.cols ∧ "Longitude" ∈ f.cols then
    Except.ok ⟨f.cols, f.rows.filter (fun r => (r "Latitude").isSome && (r "Longitude").isSome)⟩
  else Except.error "KeyError: Latitude, Longitude"

/-- Source line 233: the columns wanted for the detailed clinic list. -/
def cols_wanted : List String := ["Clinic Name", "Google_Full_Address", "Email", "Mapped_District"]

/-- Source line 236: the wanted columns actually present. -/
def valid_cols (f : Frame) : List String :=
  cols_wanted.filter (fun c => decide (c ∈ f.cols))

/-- Projection of a row onto a set of columns (pandas `df[cols]`). -/
def restrictRow (cs : List String) (r : Row) : Row :=
  fun d => if d ∈ cs then r d else none

/-- Source lines 245-248: `filtered[valid_cols].sort_values("Mapped_District")`;
`sort_values` raises a `KeyError` when the sort column is absent from the
projected frame. -/
def detail_table (f : Frame) : Except String (List Row) :=
  if "Mapped_District" ∈ valid_cols f then
    Except.ok (sortByLe (fun a b => naLastLe (a "Mapped_District") (b "Mapped_District"))
      ((f.rows.map (restrictRow (valid_cols f)))))
  else Except.error "KeyError: Mapped_District"

/-! Helper lemmas: `Except` extraction. -/

theorem except_bind_ok {α β : Type} {e : Except String α} {f : α → Except String β} {v : β}
    (h : (e >>= f) = Except.ok v) : ∃ w, e = Except.ok w ∧ f w = Except.ok v := by
  cases e with
  | error s => exact Except.noConfusion (h : Except.error s = Except.ok v)
  | ok w => exact ⟨w, rfl, h⟩

theorem ok_bind {α β : Type} (w : α) (g : α → Except String β) :
    (Except.ok w >>= g) = g w := rfl

theorem error_bind {α β : Type} (s : String) (g : α → Except String β) :
    ((Except.error s : Except String α) >>= g) = Except.error s := rfl

theorem except_map_ok {α β : Type} {g : α → β} {e : Except String α} {v : β}
    (h : e.map g = Except.ok v) : ∃ w, e = Except.ok w ∧ g w = v := by
  cases e with
  | error s => exact Except.noConfusion (h : Except.error s = Except.ok v)
  | ok w =>
    refine ⟨w, rfl, ?_⟩
    have : (Except.ok (g w) : Except String β) = Except.ok v := h
    exact (Except.ok.injEq _ _).mp this

/-! Helper lemmas: totality and transitivity of the boolean orders. -/

theorem charListLe_total (a b : List Char) : charListLe a b = true ∨ charListLe b a = true := by
  induction a generalizing b with
  | nil => exact Or.inl rfl
  | cons x xs ih =>
    cases b with
    | nil => exact Or.inr rfl
    | cons y ys =>
      by_cases hxy : x = y
      · subst hxy
        simpa [charListLe] using ih ys
      · rcases lt_trichotomy x y with h | h | h
        · exact Or.inl (by simp [charListLe, hxy, h])
        · exact absurd h hxy
        · exact Or.inr (by simp [charListLe, Ne.symm hxy, h])

theorem charListLe_trans (a b c : List Char)
    (h1 : charListLe a b = true) (h2 : charListLe b c = true) : charListLe a c = true := by
  induction a generalizing b c with
  | nil => rfl
  | cons x xs ih =>
    cases b with
    | nil => exact absurd h1 (by simp [charListLe])
    | cons y ys =>
      cases c with
      | nil => exact absurd h2 (by simp [charListLe])
      | cons z zs =>
        by_cases hxy : x = y <;> by_cases hyz : y = z
        · subst hxy; subst hyz
          simp only [charListLe, if_pos rfl] at h1 h2 ⊢
          exact ih ys zs h1 h2
        · subst hxy
          simp only [charListLe, if_pos rfl] at h1
          simp only [charListLe, if_neg hyz] at h2 ⊢
          exact h2
        · subst hyz
          simp only [charListLe, if_neg hxy] at h1 ⊢
          exact h1
        · simp only [charListLe, if_neg hxy] at h1
          simp only [charListLe, if_neg hyz] at h2
          have hxz : x < z := lt_trans (of_decide_eq_true h1) (of_decide_eq_true h2)
          have : ¬ x = z := ne_of_lt hxz
          simp [charListLe, this, hxz]

theorem cellLe_total (a b : Cell) : cellLe a b = true ∨ cellLe b a = true := by
  cases a with
  | s x =>
    cases b with
    | s y => exact charListLe_total x.data y.data
    | q y => exact Or.inl rfl
  | q x =>
    cases b with
    | s y => exact Or.inr rfl
    | q y => simpa [cellLe] using le_total x y

theorem cellLe_trans (a b c : Cell)
    (h1 : cellLe a b = true) (h2 : cellLe b c = true) : cellLe a c = true := by
  cases a with
  | s x =>
    cases c with
    | q z => rfl
    | s z =>
      cases b with
      | s y => exact charListLe_trans _ _ _ h1 h2
      | q y => exact absurd h2 (by simp [cellLe])
  | q x =>
    cases b with
    | s y => exact absurd h1 (by simp [cellLe])
    | q y =>
      cases c with
      | s z => exact absurd h2 (by simp [cellLe])
      | q z =>
        exact decide_eq_true (le_trans (of_decide_eq_true h1) (of_decide_eq_true h2))

theorem naLastLe_total (a b : Option Cell) : naLastLe a b = true ∨ naLastLe b a = true := by
  cases a <;> cases b <;> simp [naLastLe]
  exact cellLe_total _ _

theorem naLastLe_trans (a b c : Option Cell)
    (h1 : naLastLe a b = true) (h2 : naLastLe b c = true) : naLastLe a c = true := by
  cases a <;> cases b <;> cases c <;> simp_all [naLastLe]
  exact cellLe_trans _ _ _ h1 h2

/-! Helper lemmas: the stable insertion sort. -/

theorem insertLe_perm {α : Type} (le : α → α → Bool) (x : α) (l : List α) :
    (insertLe le x l).Perm (x :: l) := by
  induction l with
  | nil => exact List.Perm.refl _
  | cons y ys ih =>
    cases hle : le y x with
    | true =>
      simp only [insertLe, hle, if_true]
      exact (List.Perm.cons y ih).trans (List.Perm.swap x y ys)
    | false =>
      simp only [insertLe, hle]
      exact List.Perm.refl _

theorem foldl_insertLe_perm {α : Type} (le : α → α → Bool) (l : List α) :
    ∀ acc : List α, (l.foldl (fun a x => insertLe le x a) acc).Perm (acc ++ l) := by
  induction l with
  | nil => intro acc; simp
  | cons x xs ih =>
    intro acc
    simp only [List.foldl_cons]
    refine ((ih (insertLe le x acc)).trans ?_)
    refine (List.Perm.append_right xs (insertLe_perm le x acc)).trans ?_
    exact List.perm_middle.symm

theorem sortByLe_perm {α : Type} (le : α → α → Bool) (l : List α) :
    (sortByLe le l).Perm l := by
  simpa using foldl_insertLe_perm le l []

theorem mem_sortByLe {α : Type} (le : α → α → Bool) (l : List α) (a : α) :
    a ∈ sortByLe le l ↔ a ∈ l :=
  (sortByLe_perm le l).mem_iff

theorem insertLe_pairwise {α : Type} {le : α → α → Bool}
    (htrans : ∀ a b c, le a b = true → le b c = true → le a c = true)
    (htotal : ∀ a b, le a b = true ∨ le b a = true)
    (x : α) (l : List α) (hl : l.Pairwise (fun a b => le a b = true)) :
    (insertLe le x l).Pairwise (fun a b => le a b = true) := by
  induction l with
  | nil => simp [insertLe]
  | cons y ys ih =>
    rcases hl with _ | ⟨hy, hys⟩
    cases hle : le y x with
    | true =>
      simp only [insertLe, hle, if_true]
      refine List.Pairwise.cons ?_ (ih hys)
      intro b hb
      rcases List.mem_cons.mp ((insertLe_perm le x ys).mem_iff.mp hb) with rfl | hb'
      · exact hle
      · exact hy b hb'
    | false =>
      simp only [insertLe, hle]
      have hxy : le x y = true := by
        rcases htotal y x with h | h
        · rw [h] at hle; exact Bool.noConfusion hle
        · exact h
      refine List.Pairwise.cons ?_ (List.Pairwise.cons hy hys)
      intro b hb
      rcases List.mem_cons.mp hb with rfl | hb'
      · exact hxy
      · exact htrans x y b hxy (hy b hb')

theorem foldl_insertLe_pairwise {α : Type} {le : α → α → Bool}
    (htrans : ∀ a b c, le a b = true → le b c = true → le a c = true)
    (htotal : ∀ a b, le a b = true ∨ le b a = true) (l : List α) :
    ∀ acc : List α, acc.Pairwise (fun a b => le a b = true) →
      (l.foldl (fun a x => insertLe le x a) acc).Pairwise (fun a b => le a b = true) := by
  induction l with
  | nil => intro acc hacc; simpa using hacc
  | cons x xs ih =>
    intro acc hacc
    simp only [List.foldl_cons]
    exact ih _ (insertLe_pairwise htrans htotal x acc hacc)

theorem sortByLe_pairwise {α : Type} {le : α → α → Bool}
    (htrans : ∀ a b c, le a b = true → le b c = true → le a c = true)
    (htotal : ∀ a b, le a b = true ∨ le b a = true) (l : List α) :
    (sortByLe le l).Pairwise (fun a b => le a b = true) :=
  foldl_insertLe_pairwise htrans htotal l [] (List.Pairwise.nil)

/-! Helper lemmas: first-occurrence deduplication. -/

theorem mem_firstOccAux {α : Type} [DecidableEq α] (l : List α) :
    ∀ (seen : List α) (a : α), a ∈ firstOccAux seen l ↔ a ∈ l ∧ a ∉ seen := by
  induction l with
  | nil => intro seen a; simp [firstOccAux]
  | cons x xs ih =>
    intro seen a
    by_cases hx : x ∈ seen
    · rw [firstOccAux, if_pos hx, ih]
      constructor
      · rintro ⟨h1, h2⟩
        exact ⟨List.mem_cons_of_mem x h1, h2⟩
      · rintro ⟨h1, h2⟩
        rcases List.mem_cons.mp h1 with rfl | h1'
        · exact absurd hx h2
        · exact ⟨h1', h2⟩
    · rw [firstOccAux, if_neg hx]
      constructor
      · intro h
        rcases List.mem_cons.mp h with rfl | h'
        · exact ⟨List.mem_cons_self a xs, hx⟩
        · obtain ⟨h1, h2⟩ := (ih (x :: seen) a).mp h'
          exact ⟨List.mem_cons_of_mem x h1,
            fun hs => h2 (List.mem_cons_of_mem x hs)⟩
      · rintro ⟨h1, h2⟩
        by_cases hax : a = x
        · exact hax ▸ List.mem_cons_self x _
        · rcases List.mem_cons.mp h1 with rfl | h1'
          · exact absurd rfl hax
          · refine List.mem_cons_of_mem x ((ih (x :: seen) a).mpr ⟨h1', ?_⟩)
            intro hs
            rcases List.mem_cons.mp hs with rfl | hs'
            · exact hax rfl
            · exact h2 hs'

theorem mem_firstOcc {α : Type} [DecidableEq α] (l : List α) (a : α) :
    a ∈ firstOcc l ↔ a ∈ l := by
  rw [firstOcc, mem_firstOccAux]
  simp

theorem nodup_firstOccAux {α : Type} [DecidableEq α] (l : List α) :
    ∀ seen : List α, (firstOccAux seen l).Nodup := by
  induction l with
  | nil => intro seen; simp [firstOccAux]
  | cons x xs ih =>
    intro seen
    by_cases hx : x ∈ seen
    · rw [firstOccAux, if_pos hx]; exact ih seen
    · rw [firstOccAux, if_neg hx]
      refine List.Nodup.cons ?_ (ih (x :: seen))
      intro hmem
      exact ((mem_firstOccAux xs (x :: seen) x).mp hmem).2 (List.mem_cons_self x seen)

theorem nodup_firstOcc {α : Type} [DecidableEq α] (l : List α) : (firstOcc l).Nodup :=
  nodup_firstOccAux l []

theorem sum_counts_firstOcc {α : Type} [DecidableEq α] (l : List α) :
    ((firstOcc l).map (fun k => l.count k)).sum = l.length := by
  have hperm : (firstOcc l).Perm l.dedup :=
    (List.perm_ext_iff_of_nodup (nodup_firstOcc l) (List.nodup_dedup l)).mpr
      (fun a => by rw [mem_firstOcc, List.mem_dedup])
  calc ((firstOcc l).map (fun k => l.count k)).sum
      = (l.dedup.map (fun k => l.count k)).sum := (hperm.map _).sum_eq
    _ = l.length := List.sum_map_count_dedup_eq_length l

/-! Helper lemmas: `drop_duplicates` on (key, value) pairs. -/

theorem dropDupByKey_keys (l : List (Option Cell × Option Cell)) :
    ∀ seen : List (Option Cell),
      (dropDupByKey seen l).map (fun p => p.1) = firstOccAux seen (l.map (fun p => p.1)) := by
  induction l with
  | nil => intro seen; rfl
  | cons p ps ih =>
    intro seen
    by_cases h : p.1 ∈ seen
    · simp [dropDupByKey, firstOccAux, h, ih]
    · simp [dropDupByKey, firstOccAux, h, ih]

theorem mem_dropDupByKey_find (l : List (Option Cell × Option Cell)) :
    ∀ (seen : List (Option Cell)) (p : Option Cell × Option Cell),
      p ∈ dropDupByKey seen l →
      l.find? (fun p' => p'.1 == p.1) = some p ∧ p.1 ∉ seen := by
  induction l with
  | nil => intro seen p hp; simp [dropDupByKey] at hp
  | cons q qs ih =>
    intro seen p hp
    by_cases hq : q.1 ∈ seen
    · rw [dropDupByKey, if_pos hq] at hp
      obtain ⟨hfind, hns⟩ := ih seen p hp
      have hne : (q.1 == p.1) = false := by
        rw [beq_eq_false_iff_ne]
        intro he
        exact hns (he ▸ hq)
      rw [List.find?_cons, hne]
      exact ⟨hfind, hns⟩
    · rw [dropDupByKey, if_neg hq] at hp
      rcases List.mem_cons.mp hp with rfl | hp'
      · rw [List.find?_cons, show (p.1 == p.1) = true from beq_self_eq_true p.1]
        exact ⟨rfl, hq⟩
      · obtain ⟨hfind, hns⟩ := ih (q.1 :: seen) p hp'
        have hqp : ¬ q.1 = p.1 := fun he => hns (he ▸ List.mem_cons_self q.1 seen)
        have hne : (q.1 == p.1) = false := by rw [beq_eq_false_iff_ne]; exact hqp
        rw [List.find?_cons, hne]
        exact ⟨hfind, fun hs => hns (List.mem_cons_of_mem q.1 hs)⟩

/-! Helper lemmas: the cleaning steps. -/

theorem setCol_col_map (f : Frame) (c0 : String) (g : Option Cell → Option Cell)
    (c : String) (hc : ¬ c = c0) :
    (setCol f c0 g).rows.map (fun r => r c) = f.rows.map (fun r => r c) := by
  simp [setCol, updateRow, List.map_map, Function.comp, hc]

theorem renameCol_col_map (f : Frame) (old nw c : String)
    (h1 : ¬ c = nw) (h2 : ¬ c = old) :
    (renameCol f old nw).rows.map (fun r => r c) = f.rows.map (fun r => r c) := by
  simp [renameCol, List.map_map, Function.comp, h1, h2]

theorem cleanType_col_map (f : Frame) (c : String) (hc : ¬ c = "Clinic_Type") :
    (cleanType f).rows.map (fun r => r c) = f.rows.map (fun r => r c) := by
  rw [cleanType]
  by_cases h : "Clinic_Type" ∈ f.cols
  · rw [if_pos h, setCol_col_map _ _ _ _ hc]
  · rw [if_neg h]

theorem cleanSource_col_map (f : Frame) (c : String)
    (h1 : ¬ c = "HQsource") (h2 : ¬ c = "source") :
    (cleanSource f).rows.map (fun r => r c) = f.rows.map (fun r => r c) := by
  rw [cleanSource]
  by_cases h : "source" ∈ f.cols
  · rw [if_pos h, renameCol_col_map _ _ _ _ h1 h2]
  · rw [if_neg h]

theorem cleanBrand_col_map (f : Frame) (c : String) (hc : ¬ c = "Brand_name") :
    (cleanBrand f).rows.map (fun r => r c) = f.rows.map (fun r => r c) := by
  rw [cleanBrand]
  by_cases h : "Brand_name" ∈ f.cols
  · rw [if_pos h, setCol_col_map _ _ _ _ hc]
  · rw [if_neg h]

theorem cleanType_cols (f : Frame) : (cleanType f).cols = f.cols := by
  rw [cleanType]; by_cases h : "Clinic_Type" ∈ f.cols
  · rw [if_pos h]; rfl
  · rw [if_neg h]

theorem cleanBrand_cols (f : Frame) : (cleanBrand f).cols = f.cols := by
  rw [cleanBrand]; by_cases h : "Brand_name" ∈ f.cols
  · rw [if_pos h]; rfl
  · rw [if_neg h]

theorem mem_cleanSource_cols (f : Frame) (c : String)
    (h1 : ¬ c = "HQsource") (h2 : ¬ c = "source") :
    c ∈ (cleanSource f).cols ↔ c ∈ f.cols := by
  rw [cleanSource]
  by_cases h : "source" ∈ f.cols
  · rw [if_pos h]
    show c ∈ f.cols.map (fun d => if d = "source" then "HQsource" else d) ↔ c ∈ f.cols
    simp only [List.mem_map]
    constructor
    · rintro ⟨a, ha, he⟩
      by_cases hao : a = "source"
      · rw [if_pos hao] at he; exact absurd he.symm h1
      · rw [if_neg hao] at he; exact he ▸ ha
    · intro hmem; exact ⟨c, hmem, by rw [if_neg h2]⟩
  · rw [if_neg h]

theorem cleanType_rows_length (f : Frame) : (cleanType f).rows.length = f.rows.length := by
  rw [cleanType]; by_cases h : "Clinic_Type" ∈ f.cols
  · rw [if_pos h]; exact List.length_map _ _
  · rw [if_neg h]

theorem cleanSource_rows_length (f : Frame) : (cleanSource f).rows.length = f.rows.length := by
  rw [cleanSource]; by_cases h : "source" ∈ f.cols
  · rw [if_pos h]; exact List.length_map _ _
  · rw [if_neg h]

theorem cleanBrand_rows_length (f : Frame) : (cleanBrand f).rows.length = f.rows.length := by
  rw [cleanBrand]; by_cases h : "Brand_name" ∈ f.cols
  · rw [if_pos h]; exact List.length_map _ _
  · rw [if_neg h]

theorem clean_rows_length (f : Frame) : (clean f).rows.length = f.rows.length := by
  rw [clean, cleanBrand_rows_length, cleanSource_rows_length, cleanType_rows_length]

/-- Brand column after `clean` when the brand column is present: every
cell is non-null. -/
theorem clean_brand_isSome (f : Frame) (h : "Brand_name" ∈ f.cols) :
    ∀ r ∈ (clean f).rows, (r "Brand_name").isSome = true := by
  intro r hr
  have hmem : "Brand_name" ∈ (cleanSource (cleanType f)).cols := by
    rw [mem_cleanSource_cols _ _ (by decide) (by decide), cleanType_cols]
    exact h
  rw [clean, cleanBrand, if_pos hmem] at hr
  simp only [setCol, List.mem_map] at hr
  obtain ⟨r0, _, rfl⟩ := hr
  rfl

/-- Clinic-type column after `clean` when the clinic-type column is
present: every cell is a non-null string (pandas `astype(str)` turns NaN
into "nan"). -/
theorem clean_type_is_string (f : Frame) (h : "Clinic_Type" ∈ f.cols) :
    ∀ r ∈ (clean f).rows, ∃ v : String, r "Clinic_Type" = some (Cell.s v) := by
  intro r hr
  have hmap : (clean f).rows.map (fun r => r "Clinic_Type")
      = (cleanType f).rows.map (fun r => r "Clinic_Type") := by
    rw [clean, cleanBrand_col_map _ _ (by decide),
      cleanSource_col_map _ _ (by decide) (by decide)]
  have hval : r "Clinic_Type" ∈ (cleanType f).rows.map (fun r => r "Clinic_Type") := by
    rw [← hmap]
    exact List.mem_map_of_mem _ hr
  rw [cleanType, if_pos h] at hval
  simp only [setCol, List.map_map, List.mem_map, Function.comp] at hval
  obtain ⟨r0, _, he⟩ := hval
  refine ⟨pyTitle (pyStrip (cellToStr (r0 "Clinic_Type"))), ?_⟩
  rw [← he]
  rfl

/-! Claim C2. -/

/-- Row of the C2 counterexample: brand present, email null. -/
def rowC2 : Row := fun c => if c = "Brand_name" then some (Cell.s "B") else none

/-- Frame of the C2 counterexample. -/
def frameC2 : Frame := ⟨["Brand_name", "Email"], [rowC2]⟩

/-- C2, counterexample: normalization does not fill null emails. After
`clean` of a one-row frame whose `Email` cell is null, the email is still
null (the claimed sentinel "Not Available" appears nowhere), refuting
"after normalize no record has a null email". The brand part of the claim
does hold on this frame. -/
theorem clean_email_counterexample :
    (clean frameC2).cols = ["Brand_name", "Email"] ∧
    (clean frameC2).rows.map (fun r => r "Email") = [none] ∧
    (clean frameC2).rows.map (fun r => r "Brand_name") = [some (Cell.s "B")] :=
  ⟨rfl, rfl, rfl⟩

/-- C2 (amended): normalization fills every null brand value with
"Unknown" when the brand column is present, so afterwards no record has a
null brand; null emails are left null, and every column other than the
clinic-type column, the brand column and the renamed `source`/`HQsource`
column is unchanged. -/
theorem clean_brand_filled_others_untouched (f : Frame) :
    ("Brand_name" ∈ f.cols → ∀ r ∈ (clean f).rows, (r "Brand_name").isSome = true) ∧
    (∀ c : String, ¬ c ∈ (["Clinic_Type", "Brand_name", "source", "HQsource"] : List String) →
      (clean f).rows.map (fun r => r c) = f.rows.map (fun r => r c)) := by
  refine ⟨clean_brand_isSome f, ?_⟩
  intro c hc
  simp only [List.mem_cons, List.not_mem_nil, or_false, not_or] at hc
  obtain ⟨h1, h2, h3, h4⟩ := hc
  rw [clean, cleanBrand_col_map _ _ h2, cleanSource_col_map _ _ h4 h3,
    cleanType_col_map _ _ h1]

/-- C2, witness instantiating the amended theorem on the concrete frame
`frameC2`, discharging both hypotheses. -/
theorem clean_brand_filled_witness :
    ("Brand_name" ∈ frameC2.cols) ∧
    (∀ r ∈ (clean frameC2).rows, (r "Brand_name").isSome = true) ∧
    (clean frameC2).rows.map (fun r => r "Phone") = frameC2.rows.map (fun r => r "Phone") :=
  ⟨by decide, (clean_brand_filled_others_untouched frameC2).1 (by decide),
   (clean_brand_filled_others_untouched frameC2).2 "Phone" (by decide)⟩

/-! Claim C3. -/

/-- Frame of the C3 counterexample: one record with a null district. -/
def frameC3 : Frame := ⟨["Mapped_District"], [fun _ => none]⟩

/-- C3, counterexample: a record with a null district is silently dropped
by `value_counts` rather than forming an "unspecified" category, so the
category counts sum to 0 while the view has 1 record — the claimed
reconciliation `sum of category counts == len(view)` fails. -/
theorem count_null_dropped_counterexample :
    frameC3.rows.length = 1 ∧
    frameC3.getCol "Mapped_District" = Except.ok [none] ∧
    valueCounts [none] = [] ∧
    ¬ ((valueCounts [none]).map Prod.snd).sum = frameC3.rows.length :=
  ⟨rfl, rfl, rfl, by decide⟩

/-- C3 (amended): `value_counts` drops null values, so for every column
the category counts sum to the number of records with a non-null value in
that column (equal to the view length only when the column has no nulls),
and at frame level the sum never exceeds the number of records. -/
theorem value_counts_sum (col : List (Option Cell)) :
    ((valueCounts col).map Prod.snd).sum = (col.filterMap id).length ∧
    (∀ f : Frame, f.getCol "Mapped_District" = Except.ok col →
      ((valueCounts col).map Prod.snd).sum ≤ f.rows.length) := by
  have hsum : ((valueCounts col).map Prod.snd).sum = (col.filterMap id).length := by
    rw [valueCounts]
    have hperm := (sortByLe_perm (fun a b : Cell × ℕ => decide (b.2 ≤ a.2))
      ((firstOcc (col.filterMap id)).map (fun k => (k, (col.filterMap id).count k)))).map
      Prod.snd
    rw [hperm.sum_eq, List.map_map]
    exact sum_counts_firstOcc (col.filterMap id)
  refine ⟨hsum, ?_⟩
  intro f hf
  rw [Frame.getCol] at hf
  by_cases hmem : "Mapped_District" ∈ f.cols
  · rw [if_pos hmem] at hf
    have hcol : f.rows.map (fun r => r "Mapped_District") = col :=
      (Except.ok.injEq _ _).mp hf
    rw [hsum, ← hcol]
    calc ((f.rows.map (fun r => r "Mapped_District")).filterMap id).length
        ≤ (f.rows.map (fun r => r "Mapped_District")).length :=
          List.length_filterMap_le _ _
      _ = f.rows.length := List.length_map _ _
  · rw [if_neg hmem] at hf
    exact Except.noConfusion hf

/-- C3, witness instantiating the amended theorem on a concrete column
with one null and two non-null district cells. -/
theorem value_counts_sum_witness :
    ((valueCounts [some (Cell.s "X"), none, some (Cell.s "X")]).map Prod.snd).sum = 2 ∧
    ((valueCounts [some (Cell.s "X"), none, some (Cell.s "X")]).map Prod.snd).sum ≤
      (⟨["Mapped_District"], [fun _ => some (Cell.s "X"), fun _ => none,
        fun _ => some (Cell.s "X")]⟩ : Frame).rows.length :=
  ⟨(value_counts_sum [some (Cell.s "X"), none, some (Cell.s "X")]).1,
   (value_counts_sum [some (Cell.s "X"), none, some (Cell.s "X")]).2
     ⟨["Mapped_District"], [fun _ => some (Cell.s "X"), fun _ => none,
       fun _ => some (Cell.s "X")]⟩ rfl⟩

/-! Claim C4. -/

/-- First non-null value attached to a key, in source order — the rule
the specification words claim for `dedupe_reference`. -/
def specFirstNonNull (l : List (Option Cell × Option Cell)) (k : Option Cell) : Option Cell :=
  ((l.filter (fun p => p.1 == k)).filterMap (fun p => p.2)).head?

/-- Pairs of the C4 counterexample: key A first occurs with a null value,
then with the non-null value X. -/
def pairsC4 : List (Option Cell × Option Cell) :=
  [(some (Cell.s "A"), none), (some (Cell.s "A"), some (Cell.s "X"))]

/-- C4, counterexample: the deduplication keeps the value of the first
occurrence even when it is null. For key A whose first value is null and
whose first *non-null* value is X, the table keeps null, refuting "the
value it keeps is the first non-null value encountered in source
order". -/
theorem dedupe_keeps_null_first_counterexample :
    distinct_hq pairsC4 = [(some (Cell.s "A"), none)] ∧
    specFirstNonNull pairsC4 (some (Cell.s "A")) = some (Cell.s "X") ∧
    ¬ (none : Option Cell) = some (Cell.s "X") :=
  ⟨rfl, rfl, by decide⟩

/-- Keys of the deduplicated-and-sorted table are distinct. -/
theorem distinct_hq_keys_nodup (l : List (Option Cell × Option Cell)) :
    ((distinct_hq l).map (fun p => p.1)).Nodup := by
  have hperm : ((distinct_hq l).map (fun p => p.1)).Perm
      ((dropDupByKey [] l).map (fun p => p.1)) :=
    (sortByLe_perm _ (dropDupByKey [] l)).map _
  exact hperm.nodup_iff.mpr (dropDupByKey_keys l [] ▸ nodup_firstOcc _)

/-- Keys of the deduplicated-and-sorted table are exactly the input's
keys. -/
theorem mem_distinct_hq_keys (l : List (Option Cell × Option Cell)) (k : Option Cell) :
    k ∈ (distinct_hq l).map (fun p => p.1) ↔ k ∈ l.map (fun p => p.1) := by
  have hperm : ((distinct_hq l).map (fun p => p.1)).Perm
      ((dropDupByKey [] l).map (fun p => p.1)) :=
    (sortByLe_perm _ (dropDupByKey [] l)).map _
  rw [hperm.mem_iff, dropDupByKey_keys l [], mem_firstOccAux]
  simp

/-- Every row kept by the deduplicated-and-sorted table is the first
source-order occurrence of its key. -/
theorem distinct_hq_find (l : List (Option Cell × Option Cell))
    (p : Option Cell × Option Cell) (hp : p ∈ distinct_hq l) :
    l.find? (fun p' => p'.1 == p.1) = some p :=
  (mem_dropDupByKey_find l [] p ((mem_sortByLe _ _ p).mp hp)).1

/-- C4 (amended): the deduplicated reference table has exactly one row
per key (distinct keys, covering exactly the input's keys), and for every
key the row kept is the *first occurrence in source order*, whatever its
value (a null value is not skipped in favour of a later non-null one). -/
theorem dedupe_reference_first_occurrence (l : List (Option Cell × Option Cell)) :
    ((distinct_hq l).map (fun p => p.1)).Nodup ∧
    (∀ k : Option Cell,
      k ∈ (distinct_hq l).map (fun p => p.1) ↔ k ∈ l.map (fun p => p.1)) ∧
    (∀ p ∈ distinct_hq l, l.find? (fun p' => p'.1 == p.1) = some p) :=
  ⟨distinct_hq_keys_nodup l, mem_distinct_hq_keys l, distinct_hq_find l⟩

/-- C4, witness instantiating the amended theorem on `pairsC4`: the kept
row for key A is the first occurrence (with its null value). -/
theorem dedupe_reference_first_occurrence_witness :
    pairsC4.find? (fun p' => p'.1 == (some (Cell.s "A"))) = some (some (Cell.s "A"), none) ∧
    ((distinct_hq pairsC4).map (fun p => p.1)).Nodup :=
  ⟨(dedupe_reference_first_occurrence pairsC4).2.2 (some (Cell.s "A"), none) (by decide),
   (dedupe_reference_first_occurrence pairsC4).1⟩

/-! Claim C7. -/

/-- Ranking order claimed by the specification: count descending, ties
broken by ascending category name. -/
def specTopOrder (l : List (Cell × ℕ)) : Prop :=
  l.Pairwise (fun a b => b.2 < a.2 ∨ (a.2 = b.2 ∧ cellLe a.1 b.1 = true))

/-- Row with a given district, for the C7 counterexample. -/
def rowDist (d : String) : Row :=
  fun c => if c = "Mapped_District" then some (Cell.s d) else none

/-- Frame of the C7 counterexample: three districts A, C, B, one record
each. -/
def frameC7 : Frame := ⟨["Mapped_District"], [rowDist "A", rowDist "C", rowDist "B"]⟩

/-- C7, counterexample: with all counts tied, the ranking keeps the
categories in first-appearance order (A, C, B), not ascending name order
(A, B, C): `value_counts` gives no name-based tie-break, refuting "ties
broken by ascending category name" (and with it, the output being a
function of the multiset of category counts). -/
theorem top_ranking_tiebreak_counterexample :
    top_dist frameC7
      = Except.ok [(Cell.s "A", 1), (Cell.s "C", 1), (Cell.s "B", 1)] ∧
    ¬ specTopOrder [(Cell.s "A", 1), (Cell.s "C", 1), (Cell.s "B", 1)] := by
  refine ⟨rfl, ?_⟩
  intro h
  rw [specTopOrder] at h
  rcases h with _ | ⟨_, h⟩
  rcases h with _ | ⟨hCB, _⟩
  rcases hCB (Cell.s "B", 1) (List.mem_cons_self _ _) with h' | ⟨_, h'⟩
  · exact absurd h' (by decide)
  · exact absurd h' (by decide)

/-- Counts in a `valueCounts` result are descending. -/
theorem valueCounts_desc (col : List (Option Cell)) (n : ℕ) :
    ((valueCounts col).take n).Pairwise (fun a b => b.2 ≤ a.2) := by
  have h := @sortByLe_pairwise (Cell × ℕ) (fun a b => decide (b.2 ≤ a.2))
    (fun a b c h1 h2 => decide_eq_true
      (le_trans (of_decide_eq_true h2) (of_decide_eq_true h1)))
    (fun a b => by
      rcases Nat.le_total b.2 a.2 with h | h
      · exact Or.inl (decide_eq_true h)
      · exact Or.inr (decide_eq_true h))
    ((firstOcc (col.filterMap id)).map (fun k => (k, (col.filterMap id).count k)))
  have h' : (valueCounts col).Pairwise (fun a b : Cell × ℕ => b.2 ≤ a.2) :=
    (h.imp (fun hab => of_decide_eq_true hab))
  exact List.Pairwise.sublist (List.take_sublist n _) h'

/-- C7 (amended): the top-N rankings are sorted by count descending (ties
appear in the order the categories first occur in the view, with no
name-based tie-break), and over an empty view they return an empty
sequence rather than an error. -/
theorem top_rankings_sorted :
    (∀ (f : Frame) (l : List (Cell × ℕ)), top_dist f = Except.ok l →
      l.Pairwise (fun a b => b.2 ≤ a.2)) ∧
    (∀ (f : Frame) (l : List (Cell × ℕ)), top_brands f = Except.ok l →
      l.Pairwise (fun a b => b.2 ≤ a.2)) ∧
    (∀ f : Frame, f.rows = [] → "Mapped_District" ∈ f.cols →
      top_dist f = Except.ok []) ∧
    (∀ f : Frame, f.rows = [] → "Clinic_Type" ∈ f.cols → "Brand_name" ∈ f.cols →
      top_brands f = Except.ok []) := by
  refine ⟨?_, ?_, ?_, ?_⟩
  · intro f l h
    obtain ⟨col, _, hl⟩ := except_map_ok h
    exact hl ▸ valueCounts_desc col 10
  · intro f l h
    obtain ⟨ch, _, h2⟩ := except_bind_ok h
    obtain ⟨col, _, h3⟩ := except_bind_ok h2
    have hl : (valueCounts col).take 10 = l := (Except.ok.injEq _ _).mp h3
    exact hl ▸ valueCounts_desc col 10
  · intro f hrows hmem
    rw [top_dist, Frame.getCol, if_pos hmem, hrows]
    rfl
  · intro f hrows hct hbn
    rw [top_brands, Frame.filterEq, if_pos hct, hrows]
    show (do
      let col ← Frame.getCol ⟨f.cols, []⟩ "Brand_name"
      pure ((valueCounts col).take 10)) = Except.ok []
    rw [Frame.getCol]
    have : "Brand_name" ∈ (⟨f.cols, []⟩ : Frame).cols := hbn
    rw [if_pos this]
    rfl

/-- C7, witness instantiating the amended theorem: sortedness on the
concrete counterexample frame, and the empty-view cases on an empty
frame. -/
theorem top_rankings_sorted_witness :
    ([(Cell.s "A", 1), (Cell.s "C", 1), (Cell.s "B", 1)] :
      List (Cell × ℕ)).Pairwise (fun a b => b.2 ≤ a.2) ∧
    top_dist ⟨["Mapped_District"], []⟩ = Except.ok [] ∧
    top_brands ⟨["Clinic_Type", "Brand_name"], []⟩ = Except.ok [] :=
  ⟨top_rankings_sorted.1 frameC7 _ rfl,
   top_rankings_sorted.2.2.1 ⟨["Mapped_District"], []⟩ rfl (by decide),
   top_rankings_sorted.2.2.2 ⟨["Clinic_Type", "Brand_name"], []⟩ rfl (by decide) (by decide)⟩

/-! Claim C5. -/

/-- Rectangular latitude/longitude bounding box, as configured in the
specification. -/
structure GeoBox : Type where
  min_lat : ℚ
  max_lat : ℚ
  min_lon : ℚ
  max_lon : ℚ

/-- Geo-bounding acceptance predicate as the specification words it:
both coordinates non-null and each within the closed interval of the box
on its axis. Stated for comparison with what `geo_data` actually does. -/
def specInClosedBox (b : GeoBox) (r : Row) : Prop :=
  ∃ la lo : ℚ, r "Latitude" = some (Cell.q la) ∧ r "Longitude" = some (Cell.q lo) ∧
    b.min_lat ≤ la ∧ la ≤ b.max_lat ∧ b.min_lon ≤ lo ∧ lo ≤ b.max_lon

/-- Bounding box used in the specification's scenarios (Tamil Nadu,
{8, 14, 76, 81}). -/
def tnBox : GeoBox := ⟨8, 14, 76, 81⟩

/-- Row of the C5 counterexample: coordinates far outside the box. -/
def rowC5 : Row := fun c =>
  if c = "Latitude" then some (Cell.q 100)
  else if c = "Longitude" then some (Cell.q 100) else none

/-- Frame of the C5 counterexample. -/
def frameC5 : Frame := ⟨["Latitude", "Longitude"], [rowC5]⟩

/-- C5, counterexample: the geo operation keeps a record at latitude 100,
longitude 100, far outside the configured box, because the code only
drops null coordinates and never checks any bounding box — refuting the
"if and only if ... within the closed interval" direction of the claim. -/
theorem geo_no_box_counterexample :
    geo_data frameC5 = Except.ok ⟨["Latitude", "Longitude"], [rowC5]⟩ ∧
    ¬ specInClosedBox tnBox rowC5 := by
  refine ⟨rfl, ?_⟩
  rintro ⟨la, lo, hla, _, _, h2, _, _⟩
  rw [show rowC5 "Latitude" = some (Cell.q 100) from rfl] at hla
  have hq : (100 : ℚ) = la := by
    have := (Option.some.injEq _ _).mp hla
    exact (Cell.q.injEq _ _).mp this
  rw [← hq] at h2
  norm_num [tnBox] at h2

/-- C5 (amended): the geo operation keeps a record if and only if both
its latitude and longitude are non-null; no bounding-box restriction is
applied. Records with null coordinates are excluded without an error and
the input order is preserved. -/
theorem geo_data_dropna (f : Frame)
    (hla : "Latitude" ∈ f.cols) (hlo : "Longitude" ∈ f.cols) :
    ∃ g : Frame, geo_data f = Except.ok g ∧
      g.cols = f.cols ∧
      g.rows.Sublist f.rows ∧
      ∀ r : Row, r ∈ g.rows ↔
        r ∈ f.rows ∧ (r "Latitude").isSome = true ∧ (r "Longitude").isSome = true := by
  refine ⟨⟨f.cols,
    f.rows.filter (fun r => (r "Latitude").isSome && (r "Longitude").isSome)⟩,
    ?_, rfl, List.filter_sublist f.rows, ?_⟩
  · rw [geo_data, if_pos ⟨hla, hlo⟩]
  · intro r
    simp [List.mem_filter]

/-- C5, witness instantiating the amended theorem on the concrete frame
`frameC5` (columns present, one fully-coordinated row kept). -/
theorem geo_data_dropna_witness :
    ∃ g : Frame, geo_data frameC5 = Except.ok g ∧
      g.cols = frameC5.cols ∧
      g.rows.Sublist frameC5.rows ∧
      ∀ r : Row, r ∈ g.rows ↔
        r ∈ frameC5.rows ∧ (r "Latitude").isSome = true ∧ (r "Longitude").isSome = true :=
  geo_data_dropna frameC5 (by decide) (by decide)

/-! Claim C10. -/

/-- Frame of the C10 witness: a chained record, and none of the four
probed address columns present. -/
def frameC10 : Frame :=
  ⟨["Clinic_Type", "Brand_name"],
   [fun c => if c = "Clinic_Type" then some (Cell.s "Chained")
             else if c = "Brand_name" then some (Cell.s "A") else none]⟩

/-- C10: the address column is resolved by probing, in fixed priority
order, 'HQ', 'Headquarters', 'HQ Address', 'Google_Full_Address', taking
the first one present; and when none of the four is present while chained
records exist, the section renders an explicit missing-column error
message (an `HQView` value, not a raised exception). -/
theorem hq_column_probe (f : Frame) :
    (valid_hq_col f =
      if "HQ" ∈ f.cols then some "HQ"
      else if "Headquarters" ∈ f.cols then some "Headquarters"
      else if "HQ Address" ∈ f.cols then some "HQ Address"
      else if "Google_Full_Address" ∈ f.cols then some "Google_Full_Address"
      else none) ∧
    ("Clinic_Type" ∈ f.cols →
      (∀ c ∈ possible_hq_cols, ¬ c ∈ f.cols) →
      ¬ (f.rows.filter (fun r => r "Clinic_Type" == some (Cell.s "Chained"))) = [] →
      brandHQ f = Except.ok (HQView.errorNoAddressCol possible_hq_cols)) := by
  constructor
  · by_cases h1 : "HQ" ∈ f.cols <;>
      by_cases h2 : "Headquarters" ∈ f.cols <;>
      by_cases h3 : "HQ Address" ∈ f.cols <;>
      by_cases h4 : "Google_Full_Address" ∈ f.cols <;>
      simp [valid_hq_col, possible_hq_cols, List.find?, h1, h2, h3, h4]
  · intro hct hnone hne
    rw [brandHQ, Frame.filterEq, if_pos hct]
    show brandHQcore ⟨f.cols,
      f.rows.filter (fun r => r "Clinic_Type" == some (Cell.s "Chained"))⟩ = _
    have hv : valid_hq_col ⟨f.cols,
        f.rows.filter (fun r => r "Clinic_Type" == some (Cell.s "Chained"))⟩ = none :=
      List.find?_eq_none.mpr (fun c hc => by simpa using hnone c hc)
    rw [brandHQcore, hv]
    have hemp : (f.rows.filter
        (fun r => r "Clinic_Type" == some (Cell.s "Chained"))).isEmpty = false := by
      rw [List.isEmpty_eq_false_iff_exists_mem]
      rcases List.exists_mem_of_ne_nil _ hne with ⟨r, hr⟩
      exact ⟨r, hr⟩
    show (if (f.rows.filter
        (fun r => r "Clinic_Type" == some (Cell.s "Chained"))).isEmpty then _ else _ :
        Except String HQView) = _
    rw [hemp]
    rfl

/-- C10, witness instantiating the theorem on `frameC10`: every probed
column is absent, a chained record exists, and the section yields the
explicit error view. -/
theorem hq_column_probe_witness :
    valid_hq_col frameC10 = none ∧
    brandHQ frameC10 = Except.ok (HQView.errorNoAddressCol possible_hq_cols) :=
  ⟨((hq_column_probe frameC10).1).trans (by decide),
   (hq_column_probe frameC10).2 (by decide) (by decide)
     (fun h => List.noConfusion h)⟩

/-! Claim C1. -/

/-- First record of the C1 counterexample: chained, brand A, district D1,
headquarters "X". -/
def rowC1a : Row := fun c =>
  if c = "Clinic_Type" then some (Cell.s "Chained")
  else if c = "Brand_name" then some (Cell.s "A")
  else if c = "Mapped_District" then some (Cell.s "D1")
  else if c = "HQ" then some (Cell.s "X") else none

/-- Second record of the C1 counterexample: chained, brand A, district
D2, null headquarters. -/
def rowC1b : Row := fun c =>
  if c = "Clinic_Type" then some (Cell.s "Chained")
  else if c = "Brand_name" then some (Cell.s "A")
  else if c = "Mapped_District" then some (Cell.s "D2") else none

/-- Dataset of the C1 counterexample. -/
def frameC1 : Frame :=
  ⟨["Clinic_Type", "Brand_name", "Mapped_District", "HQ"], [rowC1a, rowC1b]⟩

/-- Selection of the C1 counterexample: the district filter excludes D1,
the record holding brand A's only non-null headquarters value. -/
def selC1 : Sel := ⟨[Cell.s "Chained"], [Cell.s "D2"], []⟩

/-- C1, counterexample: the headquarters table is computed from the
*filtered* view, not the full dataset. In a dataset where brand A's sole
non-null headquarters record (district D1, HQ "X") is excluded by the
district filter while another record of brand A stays visible, the table
maps brand A to null instead of the claimed "X". -/
theorem hq_table_from_filtered_counterexample :
    rowC1a "Brand_name" = some (Cell.s "A") ∧
    rowC1a "HQ" = some (Cell.s "X") ∧
    filteredView frameC1 selC1
      = Except.ok ⟨frameC1.cols, [rowC1b]⟩ ∧
    rowC1b "Brand_name" = some (Cell.s "A") ∧
    (do
      let fv ← filteredView frameC1 selC1
      brandHQ fv) = Except.ok (HQView.table [(some (Cell.s "A"), none)]) ∧
    ¬ (none : Option Cell) = some (Cell.s "X") :=
  ⟨rfl, rfl, rfl, rfl, rfl, by decide⟩

/-- Shape of `brandHQcore` whenever it renders a table: an address
column was found and the table is the deduplicated-and-sorted pairing of
the input rows' brand and address cells. -/
theorem brandHQcore_table (hq : Frame) (t : List (Option Cell × Option Cell))
    (h : brandHQcore hq = Except.ok (HQView.table t)) :
    ∃ c : String, valid_hq_col hq = some c ∧
      t = distinct_hq (hq.rows.map (fun r => (r "Brand_name", r c))) := by
  rw [brandHQcore] at h
  split at h
  · rename_i c hv
    split at h
    · exact absurd ((Except.ok.injEq _ _).mp h) (fun hx => HQView.noConfusion hx)
    · by_cases hbn : "Brand_name" ∈ hq.cols
      · have hc : c ∈ hq.cols := by simpa using List.find?_some hv
        rw [show hq.getCol "Brand_name"
            = Except.ok (hq.rows.map (fun r => r "Brand_name")) from by
          rw [Frame.getCol, if_pos hbn]] at h
        simp only [ok_bind] at h
        rw [show hq.getCol c = Except.ok (hq.rows.map (fun r => r c)) from by
          rw [Frame.getCol, if_pos hc]] at h
        simp only [ok_bind] at h
        have ht := (HQView.table.injEq _ _).mp ((Except.ok.injEq _ _).mp h)
        refine ⟨c, hv, ?_⟩
        rw [← ht, List.zip_map']
      · rw [show hq.getCol "Brand_name" = Except.error ("KeyError: " ++ "Brand_name") from by
          rw [Frame.getCol, if_neg hbn]] at h
        simp only [error_bind] at h
        exact Except.noConfusion h
  · split at h <;>
      exact absurd ((Except.ok.injEq _ _).mp h) (fun hx => HQView.noConfusion hx)

/-- C1 (amended): the headquarters table is a single aggregation of the
*Filtered View*: whenever `brandHQ` renders a table, some probed address
column `c` was found, and every table row is the first chained row *of
the input (filtered) frame* carrying its brand key, paired with that
row's address cell — so a brand's non-null headquarters record that the
filters exclude is not consulted — and the keys are the distinct brands
of the visible chained rows. -/
theorem brandHQ_single_filtered_aggregation (f : Frame)
    (t : List (Option Cell × Option Cell))
    (h : brandHQ f = Except.ok (HQView.table t)) :
    ∃ c : String,
      valid_hq_col ⟨f.cols,
        f.rows.filter (fun r => r "Clinic_Type" == some (Cell.s "Chained"))⟩ = some c ∧
      (∀ p ∈ t,
        ((f.rows.filter (fun r => r "Clinic_Type" == some (Cell.s "Chained"))).map
          (fun r => (r "Brand_name", r c))).find? (fun p' => p'.1 == p.1) = some p) ∧
      (t.map (fun p => p.1)).Nodup := by
  by_cases hct : "Clinic_Type" ∈ f.cols
  · rw [brandHQ, Frame.filterEq, if_pos hct] at h
    have h' : brandHQcore ⟨f.cols,
        f.rows.filter (fun r => r "Clinic_Type" == some (Cell.s "Chained"))⟩
        = Except.ok (HQView.table t) := h
    obtain ⟨c, hv, ht⟩ := brandHQcore_table _ t h'
    refine ⟨c, hv, ?_, ?_⟩
    · intro p hp
      exact distinct_hq_find _ p (ht ▸ hp)
    · rw [ht]
      exact distinct_hq_keys_nodup _
  · rw [brandHQ, Frame.filterEq, if_neg hct] at h
    simp only [error_bind] at h
    exact Except.noConfusion h

/-- C1, witness instantiating the amended theorem on the concrete
filtered view of the counterexample dataset (brand A mapped to the
first visible chained row's null address). -/
theorem brandHQ_single_filtered_aggregation_witness :
    ∃ c : String,
      valid_hq_col ⟨(⟨frameC1.cols, [rowC1b]⟩ : Frame).cols,
        (⟨frameC1.cols, [rowC1b]⟩ : Frame).rows.filter
          (fun r => r "Clinic_Type" == some (Cell.s "Chained"))⟩ = some c ∧
      (∀ p ∈ [((some (Cell.s "A") : Option Cell), (none : Option Cell))],
        (((⟨frameC1.cols, [rowC1b]⟩ : Frame).rows.filter
          (fun r => r "Clinic_Type" == some (Cell.s "Chained"))).map
          (fun r => (r "Brand_name", r c))).find? (fun p' => p'.1 == p.1) = some p) ∧
      (([((some (Cell.s "A") : Option Cell), (none : Option Cell))].map
        (fun p => p.1)).Nodup) :=
  brandHQ_single_filtered_aggregation ⟨frameC1.cols, [rowC1b]⟩
    [(some (Cell.s "A"), none)] rfl

/-! Claim C6. -/

/-- Sortedness of an option list produced by Python `sorted` under the
cell order. -/
theorem sortByLe_cellLe_pairwise (l : List Cell) :
    (sortByLe cellLe l).Pairwise (fun a b => cellLe a b = true) :=
  sortByLe_pairwise cellLe_trans cellLe_total l

/-- Shape of a successful `district_options` result. -/
theorem district_options_ok (df : Frame) (selT : List Cell) (l : List Cell)
    (h : district_options df selT = Except.ok l) :
    ∃ col : List (Option Cell), l = sortByLe cellLe (firstOcc (col.filterMap id)) := by
  rw [district_options] at h
  obtain ⟨temp, _, h2⟩ := except_bind_ok h
  obtain ⟨col, _, h4⟩ := except_bind_ok h2
  exact ⟨col, ((Except.ok.injEq _ _).mp h4).symm⟩

/-- Shape of a successful `available_brands` result. -/
theorem available_brands_ok (df : Frame) (selT selD : List Cell) (l : List Cell)
    (h : available_brands df selT selD = Except.ok l) :
    ∃ col : List (Option Cell), l = sortByLe cellLe (firstOcc (col.filterMap id)) := by
  rw [available_brands] at h
  obtain ⟨temp, _, h2⟩ := except_bind_ok h
  obtain ⟨temp2, _, h3⟩ := except_bind_ok h2
  obtain ⟨chained, _, h4⟩ := except_bind_ok h3
  obtain ⟨col, _, h5⟩ := except_bind_ok h4
  exact ⟨col, ((Except.ok.injEq _ _).mp h5).symm⟩

/-- C6: each dimension's option list is a function only of the dataset
and the selections of strictly earlier dimensions (type options of the
dataset alone; district options of the type selection; brand options of
the type and district selections) — so changing a later dimension's
selection never changes an earlier dimension's option list — and every
option list is sorted (lexicographically on the cells' textual value). -/
theorem cascade_consistency (df : Frame) (s s' : Sel) :
    ((cascadeOptions df s).1 = (cascadeOptions df s').1) ∧
    (s.types = s'.types →
      (cascadeOptions df s).2.1 = (cascadeOptions df s').2.1) ∧
    (s.types = s'.types → s.districts = s'.districts →
      (cascadeOptions df s).2.2 = (cascadeOptions df s').2.2) ∧
    (∀ l : List Cell, (cascadeOptions df s).1 = Except.ok l →
      l.Pairwise (fun a b => cellLe a b = true)) ∧
    (∀ l : List Cell, (cascadeOptions df s).2.1 = Except.ok l →
      l.Pairwise (fun a b => cellLe a b = true)) ∧
    (∀ l : List Cell, (cascadeOptions df s).2.2 = Except.ok l →
      l.Pairwise (fun a b => cellLe a b = true)) := by
  refine ⟨rfl, ?_, ?_, ?_, ?_, ?_⟩
  · intro ht
    show district_options df s.types = district_options df s'.types
    rw [ht]
  · intro ht hd
    show available_brands df s.types s.districts = available_brands df s'.types s'.districts
    rw [ht, hd]
  · intro l hl
    have hl' : clinic_type_options df = Except.ok l := hl
    obtain ⟨col, _, hshape⟩ := except_map_ok hl'
    rw [← hshape]
    exact sortByLe_cellLe_pairwise _
  · intro l hl
    have hl' : district_options df s.types = Except.ok l := hl
    obtain ⟨col, hshape⟩ := district_options_ok df s.types l hl'
    rw [hshape]
    exact sortByLe_cellLe_pairwise _
  · intro l hl
    have hl' : available_brands df s.types s.districts = Except.ok l := hl
    obtain ⟨col, hshape⟩ := available_brands_ok df s.types s.districts l hl'
    rw [hshape]
    exact sortByLe_cellLe_pairwise _

/-- First row of the C6 witness dataset. -/
def rowC6a : Row := fun c =>
  if c = "Clinic_Type" then some (Cell.s "Chained")
  else if c = "Mapped_District" then some (Cell.s "D1")
  else if c = "Brand_name" then some (Cell.s "B1") else none

/-- Second row of the C6 witness dataset. -/
def rowC6b : Row := fun c =>
  if c = "Clinic_Type" then some (Cell.s "Independent")
  else if c = "Mapped_District" then some (Cell.s "D2") else none

/-- Dataset of the C6 witness. -/
def frameC6 : Frame :=
  ⟨["Clinic_Type", "Mapped_District", "Brand_name"], [rowC6a, rowC6b]⟩

/-- C6, witness instantiating the theorem on a concrete dataset and two
selection states that differ only in the brand selection: the earlier
option lists agree, and each concrete option list is sorted. -/
theorem cascade_consistency_witness :
    ((cascadeOptions frameC6 ⟨[Cell.s "Chained"], [], []⟩).2.1
      = (cascadeOptions frameC6 ⟨[Cell.s "Chained"], [], [Cell.s "B1"]⟩).2.1) ∧
    ((cascadeOptions frameC6 ⟨[Cell.s "Chained"], [], []⟩).2.2
      = (cascadeOptions frameC6 ⟨[Cell.s "Chained"], [], [Cell.s "B1"]⟩).2.2) ∧
    ([Cell.s "D1"] : List Cell).Pairwise (fun a b => cellLe a b = true) :=
  ⟨(cascade_consistency frameC6 ⟨[Cell.s "Chained"], [], []⟩
      ⟨[Cell.s "Chained"], [], [Cell.s "B1"]⟩).2.1 rfl,
   (cascade_consistency frameC6 ⟨[Cell.s "Chained"], [], []⟩
      ⟨[Cell.s "Chained"], [], [Cell.s "B1"]⟩).2.2.1 rfl rfl,
   (cascade_consistency frameC6 ⟨[Cell.s "Chained"], [], []⟩
      ⟨[Cell.s "Chained"], [], [Cell.s "B1"]⟩).2.2.2.2.1 [Cell.s "D1"] rfl⟩

/-! Claim C8. -/

/-- Row of the C8 counterexample. -/
def rowC8 : Row := fun c => if c = "Clinic Name" then some (Cell.s "Solo Clinic") else none

/-- Frame of the C8 counterexample: a nonempty dataset lacking the
`Clinic_Type` (and every other optional) column. -/
def frameC8 : Frame := ⟨["Clinic Name"], [rowC8]⟩

/-- C8, counterexample: on a nonempty dataset lacking the `Clinic_Type`
column, normalization tolerates the absence (the frame passes through
unchanged) but the downstream type-option computation and the filtered
view abort with a `KeyError` instead of treating the field as null —
refuting "every downstream filter/aggregate/display operation still
produces a result". -/
theorem missing_column_aborts_counterexample :
    clean frameC8 = frameC8 ∧
    frameC8.rows.length = 1 ∧
    clinic_type_options (clean frameC8) = Except.error "KeyError: Clinic_Type" ∧
    filteredView (clean frameC8) ⟨[], [], []⟩ = Except.error "KeyError: Clinic_Type" :=
  ⟨rfl, rfl, rfl, rfl⟩

/-- C8 (amended): normalization itself tolerates missing optional
columns (the guarded cleaning steps skip them and no row is dropped), and
the detail table's column selection tolerates missing display columns,
but when `Clinic_Type` is absent the option computation and the filtered
view abort with a `KeyError`, and when `Mapped_District` is absent the
detail table's sort aborts with a `KeyError`. -/
theorem missing_columns_abort_filters (f : Frame) (h : ¬ "Clinic_Type" ∈ f.cols) :
    (clean f).rows.length = f.rows.length ∧
    ¬ "Clinic_Type" ∈ (clean f).cols ∧
    clinic_type_options (clean f) = Except.error "KeyError: Clinic_Type" ∧
    (∀ sel : Sel, filteredView (clean f) sel = Except.error "KeyError: Clinic_Type") ∧
    (∀ g : Frame, ¬ "Mapped_District" ∈ g.cols →
      detail_table g = Except.error "KeyError: Mapped_District") := by
  have hmem : ¬ "Clinic_Type" ∈ (clean f).cols := by
    rw [clean, cleanBrand_cols, mem_cleanSource_cols _ _ (by decide) (by decide),
      cleanType_cols]
    exact h
  refine ⟨clean_rows_length f, hmem, ?_, ?_, ?_⟩
  · rw [clinic_type_options, Frame.getCol, if_neg hmem]
    rfl
  · intro sel
    rw [filteredView, Frame.filterIsin, if_neg hmem]
    rfl
  · intro g hg
    have hvc : ¬ "Mapped_District" ∈ valid_cols g := by
      intro hmem'
      exact hg (of_decide_eq_true (List.mem_filter.mp hmem').2)
    rw [detail_table, if_neg hvc]

/-- C8, witness instantiating the amended theorem on `frameC8`. -/
theorem missing_columns_abort_filters_witness :
    (clean frameC8).rows.length = frameC8.rows.length ∧
    filteredView (clean frameC8) ⟨[Cell.s "Chained"], [], []⟩
      = Except.error "KeyError: Clinic_Type" ∧
    detail_table frameC8 = Except.error "KeyError: Mapped_District" :=
  ⟨(missing_columns_abort_filters frameC8 (by decide)).1,
   (missing_columns_abort_filters frameC8 (by decide)).2.2.2.1
     ⟨[Cell.s "Chained"], [], []⟩,
   (missing_columns_abort_filters frameC8 (by decide)).2.2.2.2 frameC8 (by decide)⟩

/-! Claim C9. -/

/-- C9: the district and brand dimensions default to the empty selection,
which is inert — a filtered view with empty district and brand selections
is exactly the type-`isin` restriction — and the type dimension defaults
to the full option list, under which the filtered view of a cleaned
dataset (whose `Clinic_Type` column is present, hence all-non-null after
`astype(str)`) is the entire dataset. -/
theorem defaults_yield_full_view (raw : Frame) (hct : "Clinic_Type" ∈ raw.cols)
    (opts : List Cell) (hopts : clinic_type_options (clean raw) = Except.ok opts) :
    (∀ (df : Frame) (sel : Sel), sel.districts = [] → sel.brands = [] →
      filteredView df sel = df.filterIsin "Clinic_Type" sel.types) ∧
    filteredView (clean raw) ⟨opts, [], []⟩ = Except.ok (clean raw) := by
  have hgen : ∀ (df : Frame) (sel : Sel), sel.districts = [] → sel.brands = [] →
      filteredView df sel = df.filterIsin "Clinic_Type" sel.types := by
    intro df sel hd hb
    rw [filteredView, hd, hb]
    cases hfe : df.filterIsin "Clinic_Type" sel.types with
    | error s => rfl
    | ok w => rfl
  have hmem : "Clinic_Type" ∈ (clean raw).cols := by
    rw [clean, cleanBrand_cols, mem_cleanSource_cols _ _ (by decide) (by decide),
      cleanType_cols]
    exact hct
  refine ⟨hgen, ?_⟩
  rw [hgen (clean raw) ⟨opts, [], []⟩ rfl rfl, Frame.filterIsin, if_pos hmem]
  have hcolv : Frame.getCol (clean raw) "Clinic_Type"
      = Except.ok ((clean raw).rows.map (fun r => r "Clinic_Type")) := by
    rw [Frame.getCol, if_pos hmem]
  have hopts' : sortByLe cellLe
      (firstOcc (((clean raw).rows.map (fun r => r "Clinic_Type")).filterMap id))
      = opts := by
    have h0 : clinic_type_options (clean raw)
        = Except.ok (sortByLe cellLe
          (firstOcc (((clean raw).rows.map (fun r => r "Clinic_Type")).filterMap id))) := by
      rw [clinic_type_options, hcolv]
      rfl
    exact (Except.ok.injEq _ _).mp (h0.symm.trans hopts)
  have hfil : (clean raw).rows.filter (fun r => cellIsin (r "Clinic_Type") opts)
      = (clean raw).rows := by
    rw [List.filter_eq_self]
    intro r hr
    obtain ⟨v, hv⟩ := clean_type_is_string raw hct r hr
    have hmemopt : Cell.s v ∈ opts := by
      rw [← hopts', mem_sortByLe, mem_firstOcc, List.mem_filterMap]
      exact ⟨some (Cell.s v), hv ▸ List.mem_map_of_mem _ hr, rfl⟩
    rw [hv]
    show opts.elem (Cell.s v) = true
    exact List.elem_iff.mpr hmemopt
  rw [hfil]

/-- Raw dataset of the C9 witness: one record with a null clinic type
(which `astype(str)` turns into the category "Nan") and one with a
lower-case padded type (normalized to "Chained"). -/
def rawC9 : Frame :=
  ⟨["Clinic_Type"],
   [fun _ => none,
    fun c => if c = "Clinic_Type" then some (Cell.s " chained ") else none]⟩

/-- C9, witness instantiating the theorem on `rawC9`: the default
selection state (all type options, empty district and brand selections)
reproduces the whole cleaned dataset. -/
theorem defaults_yield_full_view_witness :
    filteredView (clean rawC9) ⟨[Cell.s "Chained", Cell.s "Nan"], [], []⟩
      = Except.ok (clean rawC9) ∧
    filteredView (clean rawC9) ⟨[Cell.s "Chained"], [], []⟩
      = (clean rawC9).filterIsin "Clinic_Type" [Cell.s "Chained"] :=
  ⟨(defaults_yield_full_view rawC9 (by decide) [Cell.s "Chained", Cell.s "Nan"] rfl).2,
   (defaults_yield_full_view rawC9 (by decide) [Cell.s "Chained", Cell.s "Nan"] rfl).1
     (clean rawC9) ⟨[Cell.s "Chained"], [], []⟩ rfl rfl⟩

end ClinicDash
